import Mathlib

/-!
Verification of the Cellify XLSX XML extraction core (src/wasm/src/lib.rs).

The Rust code consumes a stream of quick-xml events.  Following the spec's
system overview, the tokenizer is an external collaborator: we embed each
extractor as a pure function over a list of structural events.  Text and
attribute values carry already-unescaped content; element names are local
names (prefixes stripped), attribute keys are the full key as in the source.
A tokenization failure is an explicit `error` stream element: the Rust loops
break there (`Err(_) => break`), which the generic `scan` runner mirrors.

Machine floats (`f64`) are represented by their source lexical form wrapped
in `F64`; the extractors never compute with float values, they only store
the result of a successful parse, so only parse success/failure and
structural identity matter.  `HashMap` fields are represented by their
lookup function.
-/

/-- Rust `str::parse::<u32>()`: optional leading plus sign, one or more ASCII
digits, value below 2^32. -/
def parseU32 (s : String) : Option Nat :=
  let body := match s.data with
    | c :: rest => if c = '+' then rest else s.data
    | [] => []
  if body ≠ [] ∧ body.all Char.isDigit then
    let n := body.foldl (fun acc c => acc * 10 + (c.toNat - 48)) 0
    if n < 2 ^ 32 then some n else none
  else none

/-- Rust `str::parse::<i32>()`: optional sign, digits, value in i32 range. -/
def parseI32 (s : String) : Option Int :=
  let (neg, body) : Bool × List Char := match s.data with
    | c :: rest =>
      if c = '+' then (false, rest)
      else if c = '-' then (true, rest)
      else (false, s.data)
    | [] => (false, [])
  if body ≠ [] ∧ body.all Char.isDigit then
    let n : Nat := body.foldl (fun acc c => acc * 10 + (c.toNat - 48)) 0
    let v : Int := if neg then -(n : Int) else (n : Int)
    if -(2 ^ 31) ≤ v ∧ v < 2 ^ 31 then some v else none
  else none

/-- A machine float, identified by its source lexical form.  No claim
distinguishes two lexical forms denoting the same numeric value, so this
representation is adequate for the extractors, which only store parsed
floats without computing with them. -/
structure F64 where
  lexical : String
deriving DecidableEq, Repr

/-- Exponent suffix of the Rust float grammar: empty, or e/E, optional
sign, one or more digits. -/
def f64Exp (cs : List Char) : Bool :=
  match cs with
  | [] => true
  | c :: rest =>
    (c = 'e' || c = 'E') &&
      (let rest2 := match rest with
        | c2 :: r2 => if c2 = '+' || c2 = '-' then r2 else c2 :: r2
        | [] => []
      rest2 ≠ [] && rest2.all Char.isDigit)

/-- Number part of the Rust float grammar:
digits, optional dot, optional digits, optional exponent; or
dot, digits, optional exponent. -/
def f64Number (cs : List Char) : Bool :=
  let p := cs.span Char.isDigit
  if p.1.isEmpty then
    match p.2 with
    | '.' :: r2 =>
      let q := r2.span Char.isDigit
      !q.1.isEmpty && f64Exp q.2
    | _ => false
  else
    match p.2 with
    | '.' :: r2 =>
      let q := r2.span Char.isDigit
      f64Exp q.2
    | _ => f64Exp p.2

/-- Rust `str::parse::<f64>()` syntax: optional sign, then inf / infinity /
nan (case-insensitive) or a decimal number. -/
def isF64Lit (s : String) : Bool :=
  let body := match s.data with
    | c :: rest => if c = '+' || c = '-' then rest else s.data
    | [] => []
  let lower := body.map Char.toLower
  lower = "inf".data || lower = "infinity".data || lower = "nan".data ||
    f64Number body

/-- Parsing a float keeps the lexical form when the Rust grammar accepts it. -/
def parseF64 (s : String) : Option F64 :=
  if isF64Lit s then some ⟨s⟩ else none

/-- One structural XML event as delivered by the tokenizer.  `error` marks a
tokenization failure; end of input is the end of the list. -/
inductive XmlEvent where
  | start (name : String) (attrs : List (String × String))
  | empty (name : String) (attrs : List (String × String))
  | close (name : String)
  | text (content : String)
  | error
deriving DecidableEq, Repr

/-- Whether an event is the tokenization-failure marker. -/
def XmlEvent.isError : XmlEvent → Bool
  | .error => true
  | _ => false

/-- The shared control loop of all five extractors: fold the step function
over the events, stopping (and returning the state accumulated so far) at
the first tokenization failure; end of list is end of input. -/
def scan {σ : Type} (step : σ → XmlEvent → σ) (s : σ) : List XmlEvent → σ
  | [] => s
  | e :: rest => if e.isError then s else scan step (step s e) rest

/-- XML whitespace, the characters quick-xml strips in trim_text mode. -/
def isXmlWs (c : Char) : Bool :=
  c = ' ' || c = '\t' || c = '\r' || c = '\n'

/-- Strip leading and trailing XML whitespace. -/
def xmlTrim (s : String) : String :=
  ⟨((s.data.dropWhile isXmlWs).reverse.dropWhile isXmlWs).reverse⟩

/-- Reader-side text trimming (quick-xml `trim_text(true)`): each text event
has surrounding whitespace removed and is dropped when nothing remains; all
other events pass through. -/
def trimEvent : XmlEvent → List XmlEvent
  | .text s => if xmlTrim s = "" then [] else [.text (xmlTrim s)]
  | e => [e]

/-- Trim every text event of a stream. -/
def trimEvents (evs : List XmlEvent) : List XmlEvent :=
  evs.flatMap trimEvent

/-- Last value of an attribute key under the source's fold-over-attributes
discipline (every occurrence overwrites, so the last one wins). -/
def lastAttr (attrs : List (String × String)) (key : String) : Option String :=
  attrs.foldl (fun acc kv => if kv.1 = key then some kv.2 else acc) none

/-- Parsed cell data from worksheet XML (struct ParsedCell). -/
structure ParsedCell where
  reference : String
  cell_type : Option String
  style_index : Option Nat
  value : Option String
  formula : Option String
deriving DecidableEq, Repr

/-- Parsed row data (struct ParsedRow). -/
structure ParsedRow where
  row_num : Nat
  cells : List ParsedCell
  height : Option F64
  hidden : Bool
deriving DecidableEq, Repr

/-- Parsed hyperlink (struct ParsedHyperlink). -/
structure ParsedHyperlink where
  reference : String
  rid : Option String
  location : Option String
  display : Option String
  tooltip : Option String
deriving DecidableEq, Repr

/-- Parsed worksheet data (struct ParsedWorksheet); the column-width HashMap
is represented by its lookup function. -/
structure ParsedWorksheet where
  rows : List ParsedRow
  merge_cells : List String
  hyperlinks : List ParsedHyperlink
  col_widths : Nat → Option F64

/-- Attribute fold of the `row` open handler: `r` parsed as u32 with
default 0, `ht` parsed as float (absent on failure), `hidden` truthy on
"1" or "true". -/
def rowOfAttrs (attrs : List (String × String)) : ParsedRow :=
  attrs.foldl
    (fun row kv =>
      if kv.1 = "r" then { row with row_num := (parseU32 kv.2).getD 0 }
      else if kv.1 = "ht" then { row with height := parseF64 kv.2 }
      else if kv.1 = "hidden" then
        { row with hidden := kv.2 = "1" ∨ kv.2 = "true" }
      else row)
    ⟨0, [], none, false⟩

/-- Attribute fold of the `c` open handler: `r` reference, `t` type tag,
`s` style index. -/
def cellOfAttrs (attrs : List (String × String)) : ParsedCell :=
  attrs.foldl
    (fun cell kv =>
      if kv.1 = "r" then { cell with reference := kv.2 }
      else if kv.1 = "t" then { cell with cell_type := some kv.2 }
      else if kv.1 = "s" then { cell with style_index := parseU32 kv.2 }
      else cell)
    ⟨"", none, none, none, none⟩

/-- Attribute fold of the `hyperlink` open handler; any attribute whose key
is exactly "id" or ends in ":id" supplies the relationship id. -/
def hyperlinkOfAttrs (attrs : List (String × String)) : ParsedHyperlink :=
  attrs.foldl
    (fun h kv =>
      if kv.1 = "ref" then { h with reference := kv.2 }
      else if kv.1 = "location" then { h with location := some kv.2 }
      else if kv.1 = "display" then { h with display := some kv.2 }
      else if kv.1 = "tooltip" then { h with tooltip := some kv.2 }
      else if kv.1.endsWith ":id" ∨ kv.1 = "id" then { h with rid := some kv.2 }
      else h)
    ⟨"", none, none, none, none⟩

/-- Attribute fold of the `col` open handler: independently optional
`min`, `max` (u32) and `width` (float), each occurrence overwriting. -/
def colOfAttrs (attrs : List (String × String)) :
    Option Nat × Option Nat × Option F64 :=
  attrs.foldl
    (fun acc kv =>
      if kv.1 = "min" then (parseU32 kv.2, acc.2.1, acc.2.2)
      else if kv.1 = "max" then (acc.1, parseU32 kv.2, acc.2.2)
      else if kv.1 = "width" then (acc.1, acc.2.1, parseF64 kv.2)
      else acc)
    (none, none, none)

/-- The loop `for col in min..=max { insert col w }`, counted down by the
remaining number of keys. -/
def insertColsAux (w : F64) : Nat → Nat → (Nat → Option F64) → Nat → Option F64
  | _, 0, f => f
  | col, k + 1, f =>
    insertColsAux w (col + 1) k (fun j => if j = col then some w else f j)

/-- Insert width `w` for every column in the inclusive range. -/
def insertCols (f : Nat → Option F64) (mn mx : Nat) (w : F64) :
    Nat → Option F64 :=
  insertColsAux w mn (mx + 1 - mn) f

/-- Scan state of parse_worksheet_impl. -/
structure WsState where
  worksheet : ParsedWorksheet
  current_row : Option ParsedRow
  current_cell : Option ParsedCell
  in_value : Bool
  in_formula : Bool
  in_inline_str : Bool
  text_content : String

/-- Open-tag dispatch of parse_worksheet_impl (Start and Empty events take
the same branch in the source). -/
def wsOpen (st : WsState) (n : String) (attrs : List (String × String)) :
    WsState :=
  if n = "row" then { st with current_row := some (rowOfAttrs attrs) }
  else if n = "c" then { st with current_cell := some (cellOfAttrs attrs) }
  else if n = "v" then { st with in_value := true, text_content := "" }
  else if n = "f" then { st with in_formula := true, text_content := "" }
  else if n = "is" then { st with in_inline_str := true, text_content := "" }
  else if n = "col" then
    match colOfAttrs attrs with
    | (some mn, some mx, some w) =>
      { st with worksheet :=
          { st.worksheet with
              col_widths := insertCols st.worksheet.col_widths mn mx w } }
    | _ => st
  else if n = "mergeCell" then
    { st with worksheet :=
        { st.worksheet with
            merge_cells := st.worksheet.merge_cells ++
              (attrs.filter (fun kv => kv.1 = "ref")).map (fun kv => kv.2) } }
  else if n = "hyperlink" then
    let h := hyperlinkOfAttrs attrs
    if h.reference = "" then st
    else
      { st with worksheet :=
          { st.worksheet with hyperlinks := st.worksheet.hyperlinks ++ [h] } }
  else st

/-- Close-tag dispatch of parse_worksheet_impl. -/
def wsClose (st : WsState) (n : String) : WsState :=
  if n = "row" then
    match st.current_row with
    | some row =>
      { st with
          current_row := none,
          worksheet := { st.worksheet with rows := st.worksheet.rows ++ [row] } }
    | none => st
  else if n = "c" then
    match st.current_cell with
    | some cell =>
      match st.current_row with
      | some row =>
        { st with
            current_cell := none,
            current_row := some { row with cells := row.cells ++ [cell] } }
      | none => { st with current_cell := none }
    | none => st
  else if n = "v" then
    { st with
        in_value := false,
        current_cell := st.current_cell.map
          (fun c => { c with value := some st.text_content }) }
  else if n = "f" then
    { st with
        in_formula := false,
        current_cell := st.current_cell.map
          (fun c =>
            if st.text_content = "" then c
            else { c with formula := some st.text_content }) }
  else if n = "is" then
    { st with
        in_inline_str := false,
        current_cell := st.current_cell.map
          (fun c => { c with value := some st.text_content }) }
  else st

/-- One event of parse_worksheet_impl. -/
def wsStep (st : WsState) : XmlEvent → WsState
  | .start n attrs => wsOpen st n attrs
  | .empty n attrs => wsOpen st n attrs
  | .close n => wsClose st n
  | .text s =>
    if st.in_value || st.in_formula || st.in_inline_str then
      { st with text_content := st.text_content ++ s }
    else st
  | .error => st

/-- Initial state of parse_worksheet_impl. -/
def wsInit : WsState :=
  ⟨⟨[], [], [], fun _ => none⟩, none, none, false, false, false, ""⟩

/-- parse_worksheet_impl over the event stream of one worksheet document;
the reader is configured with trim_text(true). -/
def parse_worksheet_impl (evs : List XmlEvent) : ParsedWorksheet :=
  (scan wsStep wsInit (trimEvents evs)).worksheet

/-- Scan state of parse_shared_strings_impl. -/
structure SsState where
  strings : List String
  in_si : Bool
  in_t : Bool
  current_string : String
deriving DecidableEq, Repr

/-- One event of parse_shared_strings_impl.  Note that only Start events
open scopes (a self-closing element falls into the catch-all arm), while a
closing `si` pushes the buffer unconditionally and a closing `t` always
clears the text flag. -/
def ssStep (st : SsState) : XmlEvent → SsState
  | .start n _ =>
    if n = "si" then { st with in_si := true, current_string := "" }
    else if n = "t" then
      if st.in_si then { st with in_t := true } else st
    else st
  | .close n =>
    if n = "si" then
      { st with in_si := false, strings := st.strings ++ [st.current_string] }
    else if n = "t" then { st with in_t := false }
    else st
  | .text s =>
    if st.in_t then { st with current_string := st.current_string ++ s } else st
  | _ => st

/-- parse_shared_strings_impl over the event stream; the reader is
configured with trim_text(false), so text events arrive untrimmed. -/
def parse_shared_strings_impl (evs : List XmlEvent) : List String :=
  (scan ssStep ⟨[], false, false, ""⟩ evs).strings

/-- Style definition from styles.xml (struct ParsedStyle). -/
structure ParsedStyle where
  num_fmt_id : Option Nat
  font_id : Option Nat
  fill_id : Option Nat
  border_id : Option Nat
  xf_id : Option Nat
  apply_number_format : Bool
  apply_font : Bool
  apply_fill : Bool
  apply_border : Bool
  apply_alignment : Bool
  horizontal : Option String
  vertical : Option String
  wrap_text : Bool
  text_rotation : Option Int
  indent : Option Nat
deriving DecidableEq, Repr

/-- ParsedStyle::default(). -/
def defaultStyle : ParsedStyle :=
  ⟨none, none, none, none, none, false, false, false, false, false,
   none, none, false, none, none⟩

/-- Font definition (struct ParsedFont). -/
structure ParsedFont where
  bold : Bool
  italic : Bool
  underline : Bool
  strikethrough : Bool
  size : Option F64
  color : Option String
  name : Option String
deriving DecidableEq, Repr

/-- Fill definition (struct ParsedFill). -/
structure ParsedFill where
  pattern_type : Option String
  fg_color : Option String
  bg_color : Option String
deriving DecidableEq, Repr

/-- Border definition (struct ParsedBorder). -/
structure ParsedBorder where
  left_style : Option String
  left_color : Option String
  right_style : Option String
  right_color : Option String
  top_style : Option String
  top_color : Option String
  bottom_style : Option String
  bottom_color : Option String
deriving DecidableEq, Repr

/-- ParsedBorder::default(). -/
def defaultBorder : ParsedBorder :=
  ⟨none, none, none, none, none, none, none, none⟩

/-- Parsed styles data (struct ParsedStyles); the numFmt HashMap is
represented by its lookup function. -/
structure ParsedStyles where
  cell_xfs : List ParsedStyle
  fonts : List ParsedFont
  fills : List ParsedFill
  borders : List ParsedBorder
  num_fmts : Nat → Option String

/-- Attribute fold of the `xf` open handler. -/
def xfOfAttrs (attrs : List (String × String)) : ParsedStyle :=
  attrs.foldl
    (fun s kv =>
      if kv.1 = "numFmtId" then { s with num_fmt_id := parseU32 kv.2 }
      else if kv.1 = "fontId" then { s with font_id := parseU32 kv.2 }
      else if kv.1 = "fillId" then { s with fill_id := parseU32 kv.2 }
      else if kv.1 = "borderId" then { s with border_id := parseU32 kv.2 }
      else if kv.1 = "xfId" then { s with xf_id := parseU32 kv.2 }
      else if kv.1 = "applyNumberFormat" then
        { s with apply_number_format := kv.2 = "1" ∨ kv.2 = "true" }
      else if kv.1 = "applyFont" then
        { s with apply_font := kv.2 = "1" ∨ kv.2 = "true" }
      else if kv.1 = "applyFill" then
        { s with apply_fill := kv.2 = "1" ∨ kv.2 = "true" }
      else if kv.1 = "applyBorder" then
        { s with apply_border := kv.2 = "1" ∨ kv.2 = "true" }
      else if kv.1 = "applyAlignment" then
        { s with apply_alignment := kv.2 = "1" ∨ kv.2 = "true" }
      else s)
    defaultStyle

/-- Attribute fold of the `alignment` handler, applied to the most recently
pushed xf. -/
def alignmentApply (attrs : List (String × String)) (s : ParsedStyle) :
    ParsedStyle :=
  attrs.foldl
    (fun s kv =>
      if kv.1 = "horizontal" then { s with horizontal := some kv.2 }
      else if kv.1 = "vertical" then { s with vertical := some kv.2 }
      else if kv.1 = "wrapText" then
        { s with wrap_text := kv.2 = "1" ∨ kv.2 = "true" }
      else if kv.1 = "textRotation" then { s with text_rotation := parseI32 kv.2 }
      else if kv.1 = "indent" then { s with indent := parseU32 kv.2 }
      else s)
    s

/-- Rust's `Vec::last_mut()` mutation: apply `f` to the last element, if
any. -/
def modifyLast {α : Type} (f : α → α) : List α → List α
  | [] => []
  | [a] => [f a]
  | a :: rest => a :: modifyLast f rest

/-- Record a side's `style` attribute into the matching border field. -/
def setSideStyle (b : ParsedBorder) (side v : String) : ParsedBorder :=
  if side = "left" then { b with left_style := some v }
  else if side = "right" then { b with right_style := some v }
  else if side = "top" then { b with top_style := some v }
  else if side = "bottom" then { b with bottom_style := some v }
  else b

/-- Record a `color` element's `rgb` into the recorded side's color field. -/
def setSideColor (b : ParsedBorder) (side v : String) : ParsedBorder :=
  if side = "left" then { b with left_color := some v }
  else if side = "right" then { b with right_color := some v }
  else if side = "top" then { b with top_color := some v }
  else if side = "bottom" then { b with bottom_color := some v }
  else b

/-- Scan state of parse_styles_impl. -/
structure StState where
  styles : ParsedStyles
  in_cell_xfs : Bool
  in_fonts : Bool
  in_fills : Bool
  in_borders : Bool
  in_num_fmts : Bool
  current_font : Option ParsedFont
  current_fill : Option ParsedFill
  current_border : Option ParsedBorder
  in_pattern_fill : Bool
  current_border_side : Option String

/-- Open-tag dispatch of parse_styles_impl (Start and Empty events take the
same branch).  The source's match arms are ordered; the only name with two
guarded arms is `color`, whose font-scope arm precedes its border-side arm,
mirrored here by the nested conditional. -/
def stOpen (st : StState) (n : String) (attrs : List (String × String)) :
    StState :=
  if n = "cellXfs" then { st with in_cell_xfs := true }
  else if n = "fonts" then { st with in_fonts := true }
  else if n = "fills" then { st with in_fills := true }
  else if n = "borders" then { st with in_borders := true }
  else if n = "numFmts" then { st with in_num_fmts := true }
  else if n = "xf" then
    if st.in_cell_xfs then
      { st with
          styles :=
            { st.styles with
                cell_xfs := st.styles.cell_xfs ++ [xfOfAttrs attrs] } }
    else st
  else if n = "alignment" then
    if st.in_cell_xfs then
      { st with
          styles :=
            { st.styles with
                cell_xfs := modifyLast (alignmentApply attrs) st.styles.cell_xfs } }
    else st
  else if n = "font" then
    if st.in_fonts then
      { st with current_font := some ⟨false, false, false, false, none, none, none⟩ }
    else st
  else if n = "b" then
    { st with current_font := st.current_font.map (fun f => { f with bold := true }) }
  else if n = "i" then
    { st with current_font := st.current_font.map (fun f => { f with italic := true }) }
  else if n = "u" then
    { st with current_font := st.current_font.map (fun f => { f with underline := true }) }
  else if n = "strike" then
    { st with
        current_font := st.current_font.map
          (fun f => { f with strikethrough := true }) }
  else if n = "sz" then
    { st with
        current_font := st.current_font.map
          (fun f => attrs.foldl
            (fun f kv =>
              if kv.1 = "val" then { f with size := parseF64 kv.2 } else f) f) }
  else if n = "color" then
    if st.current_font.isSome then
      { st with
          current_font := st.current_font.map
            (fun f => attrs.foldl
              (fun f kv =>
                if kv.1 = "rgb" then { f with color := some kv.2 } else f) f) }
    else if st.current_border_side.isSome then
      { st with
          current_border := st.current_border.map
            (fun b => attrs.foldl
              (fun b kv =>
                if kv.1 = "rgb" then
                  setSideColor b (st.current_border_side.getD "") kv.2
                else b) b) }
    else st
  else if n = "name" then
    { st with
        current_font := st.current_font.map
          (fun f => attrs.foldl
            (fun f kv =>
              if kv.1 = "val" then { f with name := some kv.2 } else f) f) }
  else if n = "fill" then
    if st.in_fills then { st with current_fill := some ⟨none, none, none⟩ }
    else st
  else if n = "patternFill" then
    if st.current_fill.isSome then
      { st with
          in_pattern_fill := true,
          current_fill := st.current_fill.map
            (fun fl => attrs.foldl
              (fun fl kv =>
                if kv.1 = "patternType" then { fl with pattern_type := some kv.2 }
                else fl) fl) }
    else st
  else if n = "fgColor" then
    if st.in_pattern_fill then
      { st with
          current_fill := st.current_fill.map
            (fun fl => attrs.foldl
              (fun fl kv =>
                if kv.1 = "rgb" then { fl with fg_color := some kv.2 } else fl) fl) }
    else st
  else if n = "bgColor" then
    if st.in_pattern_fill then
      { st with
          current_fill := st.current_fill.map
            (fun fl => attrs.foldl
              (fun fl kv =>
                if kv.1 = "rgb" then { fl with bg_color := some kv.2 } else fl) fl) }
    else st
  else if n = "border" then
    if st.in_borders then { st with current_border := some defaultBorder }
    else st
  else if n = "left" ∨ n = "right" ∨ n = "top" ∨ n = "bottom" then
    if st.current_border.isSome then
      { st with
          current_border_side := some n,
          current_border := st.current_border.map
            (fun b => attrs.foldl
              (fun b kv =>
                if kv.1 = "style" then setSideStyle b n kv.2 else b) b) }
    else st
  else if n = "numFmt" then
    if st.in_num_fmts then
      match attrs.foldl
          (fun (acc : Option Nat × Option String) kv =>
            if kv.1 = "numFmtId" then (parseU32 kv.2, acc.2)
            else if kv.1 = "formatCode" then (acc.1, some kv.2)
            else acc)
          (none, none) with
      | (some id, some code) =>
        { st with
            styles :=
              { st.styles with
                  num_fmts := fun k =>
                    if k = id then some code else st.styles.num_fmts k } }
      | _ => st
    else st
  else st

/-- Close-tag dispatch of parse_styles_impl.  A closing side element clears
the recorded side name unconditionally; a closing `border` pushes the
builder without clearing the side name. -/
def stClose (st : StState) (n : String) : StState :=
  if n = "cellXfs" then { st with in_cell_xfs := false }
  else if n = "fonts" then { st with in_fonts := false }
  else if n = "fills" then { st with in_fills := false }
  else if n = "borders" then { st with in_borders := false }
  else if n = "numFmts" then { st with in_num_fmts := false }
  else if n = "font" then
    if st.in_fonts then
      { st with
          styles := { st.styles with fonts := st.styles.fonts ++ st.current_font.toList },
          current_font := none }
    else st
  else if n = "fill" then
    if st.in_fills then
      { st with
          styles := { st.styles with fills := st.styles.fills ++ st.current_fill.toList },
          current_fill := none,
          in_pattern_fill := false }
    else st
  else if n = "patternFill" then { st with in_pattern_fill := false }
  else if n = "border" then
    if st.in_borders then
      { st with
          styles := { st.styles with
            borders := st.styles.borders ++ st.current_border.toList },
          current_border := none }
    else st
  else if n = "left" ∨ n = "right" ∨ n = "top" ∨ n = "bottom" then
    { st with current_border_side := none }
  else st

/-- One event of parse_styles_impl. -/
def stStep (st : StState) : XmlEvent → StState
  | .start n attrs => stOpen st n attrs
  | .empty n attrs => stOpen st n attrs
  | .close n => stClose st n
  | _ => st

/-- Initial state of parse_styles_impl. -/
def stInit : StState :=
  ⟨⟨[], [], [], [], fun _ => none⟩, false, false, false, false, false,
   none, none, none, false, none⟩

/-- parse_styles_impl over the event stream; trim_text(true). -/
def parse_styles_impl (evs : List XmlEvent) : ParsedStyles :=
  (scan stStep stInit (trimEvents evs)).styles

/-- Workbook sheet info (struct ParsedSheetInfo). -/
structure ParsedSheetInfo where
  name : String
  sheet_id : Nat
  rid : String
  state : Option String
deriving DecidableEq, Repr

/-- Attribute fold of the `sheet` handler; any attribute whose key is
exactly "id" or ends in ":id" supplies the relationship id. -/
def sheetOfAttrs (attrs : List (String × String)) : ParsedSheetInfo :=
  attrs.foldl
    (fun s kv =>
      if kv.1 = "name" then { s with name := kv.2 }
      else if kv.1 = "sheetId" then { s with sheet_id := (parseU32 kv.2).getD 0 }
      else if kv.1 = "state" then { s with state := some kv.2 }
      else if kv.1.endsWith ":id" ∨ kv.1 = "id" then { s with rid := kv.2 }
      else s)
    ⟨"", 0, "", none⟩

/-- One event of parse_workbook_impl: a `sheet` Start or Empty element is
appended when its name is non-empty; all other events are ignored. -/
def wbStep (sheets : List ParsedSheetInfo) : XmlEvent → List ParsedSheetInfo
  | .start n attrs =>
    if n = "sheet" then
      let s := sheetOfAttrs attrs
      if s.name = "" then sheets else sheets ++ [s]
    else sheets
  | .empty n attrs =>
    if n = "sheet" then
      let s := sheetOfAttrs attrs
      if s.name = "" then sheets else sheets ++ [s]
    else sheets
  | _ => sheets

/-- parse_workbook_impl over the event stream; trim_text(true). -/
def parse_workbook_impl (evs : List XmlEvent) : List ParsedSheetInfo :=
  scan wbStep [] (trimEvents evs)

/-- Relationship info (struct ParsedRelationship). -/
structure ParsedRelationship where
  id : String
  rel_type : String
  target : String
  target_mode : Option String
deriving DecidableEq, Repr

/-- Attribute fold of the `Relationship` handler. -/
def relOfAttrs (attrs : List (String × String)) : ParsedRelationship :=
  attrs.foldl
    (fun r kv =>
      if kv.1 = "Id" then { r with id := kv.2 }
      else if kv.1 = "Type" then { r with rel_type := kv.2 }
      else if kv.1 = "Target" then { r with target := kv.2 }
      else if kv.1 = "TargetMode" then { r with target_mode := some kv.2 }
      else r)
    ⟨"", "", "", none⟩

/-- One event of parse_relationships_impl: a `Relationship` Start or Empty
element is appended when its Id is non-empty. -/
def relStep (rels : List ParsedRelationship) : XmlEvent → List ParsedRelationship
  | .start n attrs =>
    if n = "Relationship" then
      let r := relOfAttrs attrs
      if r.id = "" then rels else rels ++ [r]
    else rels
  | .empty n attrs =>
    if n = "Relationship" then
      let r := relOfAttrs attrs
      if r.id = "" then rels else rels ++ [r]
    else rels
  | _ => rels

/-- parse_relationships_impl over the event stream; trim_text(true). -/
def parse_relationships_impl (evs : List XmlEvent) : List ParsedRelationship :=
  scan relStep [] (trimEvents evs)

mutual
/-- Well-formed XML documents for quantified claims: a tree of elements
(open tag, children, matching close tag), self-closing elements and text
nodes; `XmlForest` is a sibling sequence.  The pair is mutually inductive
to keep structural recursion straightforward. -/
inductive XmlTree where
  | text (s : String)
  | selfClosing (n : String) (attrs : List (String × String))
  | elem (n : String) (attrs : List (String × String)) (children : XmlForest)
deriving DecidableEq

inductive XmlForest where
  | nil
  | cons (t : XmlTree) (ts : XmlForest)
deriving DecidableEq
end

mutual
/-- The event stream of one well-formed tree. -/
def XmlTree.events : XmlTree → List XmlEvent
  | .text s => [.text s]
  | .selfClosing n attrs => [.empty n attrs]
  | .elem n attrs cs => .start n attrs :: (XmlForest.events cs ++ [.close n])

/-- The event stream of a sibling sequence, in document order. -/
def XmlForest.events : XmlForest → List XmlEvent
  | .nil => []
  | .cons t ts => t.events ++ ts.events
end

mutual
/-- No element named row or c anywhere in the tree. -/
def noRowC : XmlTree → Bool
  | .text _ => true
  | .selfClosing n _ => !(n = "row" || n = "c")
  | .elem n _ cs => !(n = "row" || n = "c") && noRowCForest cs

/-- Forest version of noRowC. -/
def noRowCForest : XmlForest → Bool
  | .nil => true
  | .cons t ts => noRowC t && noRowCForest ts
end

/-- A legal child of a row element: no nested row element, and a c element
carries no row or c elements inside. -/
def rowChild : XmlTree → Bool
  | .text _ => true
  | .selfClosing n _ => !(n = "row")
  | .elem n _ cs => !(n = "row") && noRowCForest cs

/-- All children of a row element are legal. -/
def rowChildForest : XmlForest → Bool
  | .nil => true
  | .cons t ts => rowChild t && rowChildForest ts

mutual
/-- Shape of a worksheet document: row elements hold only legal row
children, c elements never appear outside a row, everything else may nest
arbitrarily. -/
def wsTree : XmlTree → Bool
  | .text _ => true
  | .selfClosing _ _ => true
  | .elem n _ cs =>
    if n = "row" then rowChildForest cs
    else if n = "c" then false
    else wsForest cs

/-- Forest version of wsTree. -/
def wsForest : XmlForest → Bool
  | .nil => true
  | .cons t ts => wsTree t && wsForest ts
end

/-- Number of cells a row child contributes: one per c element written with
an open and a close tag. -/
def cOne : XmlTree → Nat
  | .elem n _ _ => if n = "c" then 1 else 0
  | _ => 0

/-- Number of open-and-closed c children of a row element. -/
def cCount : XmlForest → Nat
  | .nil => 0
  | .cons t ts => cOne t + cCount ts

mutual
/-- For every open-and-closed row element in document order, the number of
its open-and-closed c children. -/
def rccTree : XmlTree → List Nat
  | .text _ => []
  | .selfClosing _ _ => []
  | .elem n _ cs => if n = "row" then [cCount cs] else rccForest cs

/-- Forest version of rccTree. -/
def rccForest : XmlForest → List Nat
  | .nil => []
  | .cons t ts => rccTree t ++ rccForest ts
end

mutual
/-- Number of row elements in the document, self-closing ones included. -/
def rowElemCount : XmlTree → Nat
  | .text _ => 0
  | .selfClosing n _ => if n = "row" then 1 else 0
  | .elem n _ cs => (if n = "row" then 1 else 0) + rowElemCountForest cs

/-- Forest version of rowElemCount. -/
def rowElemCountForest : XmlForest → Nat
  | .nil => 0
  | .cons t ts => rowElemCount t + rowElemCountForest ts
end

/-- Number of c children of a row element, self-closing ones included. -/
def cChildCountAll : XmlForest → Nat
  | .nil => 0
  | .cons (.elem n _ _) ts => (if n = "c" then 1 else 0) + cChildCountAll ts
  | .cons (.selfClosing n _) ts => (if n = "c" then 1 else 0) + cChildCountAll ts
  | .cons (.text _) ts => cChildCountAll ts

/-- Abstraction of the worksheet scan state that row and cell counting
depends on: the cell count of every finalized row, the cell count of the
open row builder, and whether a cell builder is open. -/
structure QState where
  rs : List Nat
  cr : Option Nat
  cc : Bool
deriving DecidableEq, Repr

/-- Open-tag transition of the counting abstraction. -/
def qOpen (q : QState) (n : String) : QState :=
  if n = "row" then ⟨q.rs, some 0, q.cc⟩
  else if n = "c" then ⟨q.rs, q.cr, true⟩
  else q

/-- Counting abstraction of wsStep: only row and c events move it. -/
def qStep (q : QState) : XmlEvent → QState
  | .start n _ => qOpen q n
  | .empty n _ => qOpen q n
  | .close n =>
    if n = "row" then
      match q.cr with
      | some k => ⟨q.rs ++ [k], none, q.cc⟩
      | none => q
    else if n = "c" then
      if q.cc then ⟨q.rs, q.cr.map (· + 1), false⟩ else q
    else q
  | _ => q

/-- Projection of the worksheet scan state onto the counting abstraction. -/
def projQ (st : WsState) : QState :=
  ⟨st.worksheet.rows.map (fun r => r.cells.length),
   st.current_row.map (fun r => r.cells.length),
   st.current_cell.isSome⟩

/-- Concatenation in document order (used to state the rich-text claim). -/
def concatAll : List String → String
  | [] => ""
  | s :: rest => s ++ concatAll rest

/-- Event stream of one rich-text run: an r element wrapping a t element
around the run's text. -/
def runEvents (s : String) : List XmlEvent :=
  [.start "r" [], .start "t" [], .text s, .close "t", .close "r"]

/-- Event stream of a sequence of rich-text runs. -/
def runsEvents (ts : List String) : List XmlEvent :=
  ts.flatMap runEvents

/-- Whether an event opens a col element (Start or Empty), the only events
that modify the column-width map. -/
def isColOpen : XmlEvent → Bool
  | .start n _ => n = "col"
  | .empty n _ => n = "col"
  | _ => false

theorem isError_false (e : XmlEvent) (h : e ≠ XmlEvent.error) :
    e.isError = false := by
  cases e <;> simp_all [XmlEvent.isError]

theorem scan_cons_ok {σ : Type} (step : σ → XmlEvent → σ) (s : σ)
    (e : XmlEvent) (evs : List XmlEvent) (h : e.isError = false) :
    scan step s (e :: evs) = scan step (step s e) evs := by
  simp [scan, h]

theorem scan_cons_error {σ : Type} (step : σ → XmlEvent → σ) (s : σ)
    (evs : List XmlEvent) : scan step s (XmlEvent.error :: evs) = s := rfl

theorem scan_append {σ : Type} (step : σ → XmlEvent → σ)
    (a b : List XmlEvent) (h : XmlEvent.error ∉ a) (s : σ) :
    scan step s (a ++ b) = scan step (scan step s a) b := by
  induction a generalizing s with
  | nil => rfl
  | cons e a ih =>
    have he : e.isError = false :=
      isError_false e (fun hx => h (hx ▸ List.mem_cons_self e a))
    rw [List.cons_append, scan_cons_ok _ _ _ _ he, scan_cons_ok _ _ _ _ he]
    exact ih (fun hx => h (List.mem_cons_of_mem e hx)) (step s e)

theorem scan_stop {σ : Type} (step : σ → XmlEvent → σ)
    (a b : List XmlEvent) (h : XmlEvent.error ∉ a) (s : σ) :
    scan step s (a ++ XmlEvent.error :: b) = scan step s a := by
  rw [scan_append step a _ h s, scan_cons_error]

theorem scan_insert_noop {σ : Type} (step : σ → XmlEvent → σ) (e : XmlEvent)
    (he : e.isError = false) (hstep : ∀ s, step s e = s) :
    ∀ (pre post : List XmlEvent) (s : σ),
      scan step s (pre ++ e :: post) = scan step s (pre ++ post) := by
  intro pre
  induction pre with
  | nil =>
    intro post s
    simpa [scan_cons_ok step s e post he] using congrArg (fun x => scan step x post) (hstep s)
  | cons e' pre ih =>
    intro post s
    by_cases he' : e'.isError = true
    · cases e' <;> simp_all [scan]
    · have he'' : e'.isError = false := by simpa using he'
      rw [List.cons_append, List.cons_append, scan_cons_ok _ _ _ _ he'',
        scan_cons_ok _ _ _ _ he'']
      exact ih post (step s e')

theorem trimEvents_append (a b : List XmlEvent) :
    trimEvents (a ++ b) = trimEvents a ++ trimEvents b := by
  simp [trimEvents]

theorem trimEvents_error_not_mem (a : List XmlEvent)
    (h : XmlEvent.error ∉ a) : XmlEvent.error ∉ trimEvents a := by
  intro hx
  rcases List.mem_flatMap.1 hx with ⟨e, he, hmem⟩
  cases e with
  | text s =>
    simp only [trimEvent] at hmem
    split at hmem <;> simp_all
  | error => exact h he
  | start n attrs => simp [trimEvent] at hmem
  | empty n attrs => simp [trimEvent] at hmem
  | close n => simp [trimEvent] at hmem

/-- C10: a self-closing si element in a shared-strings document contributes
no entry to parse_shared_strings: only an si open tag starts an entry and
only an si close tag pushes one, so inserting an Empty si event anywhere
leaves the output unchanged, and later entries shift relative to the
document's si count (the concrete document has three si elements but "B"
sits at index 1). -/
theorem C10_self_closing_si_no_entry :
    (∀ (attrs : List (String × String)) (pre post : List XmlEvent),
      parse_shared_strings_impl (pre ++ XmlEvent.empty "si" attrs :: post) =
        parse_shared_strings_impl (pre ++ post)) ∧
    parse_shared_strings_impl
      [.start "si" [], .start "t" [], .text "A", .close "t", .close "si",
       .empty "si" [], .start "si" [], .start "t" [], .text "B", .close "t",
       .close "si"] = ["A", "B"] := by
  constructor
  · intro attrs pre post
    unfold parse_shared_strings_impl
    rw [scan_insert_noop ssStep (XmlEvent.empty "si" attrs) rfl
      (fun s => rfl) pre post]
  · decide

/-- C4: parse_shared_strings preserves whitespace verbatim — for every text
content s, including one with leading and trailing whitespace, the returned
entry is exactly s; by contrast the worksheet extractor, whose reader trims
text, turns the value text "  x  " into "x". -/
theorem C4_shared_strings_whitespace_verbatim :
    (∀ s : String,
      parse_shared_strings_impl
        [.start "sst" [], .start "si" [], .start "t" [], .text s,
         .close "t", .close "si", .close "sst"] = [s]) ∧
    (parse_worksheet_impl
        [.start "row" [], .start "c" [], .start "v" [], .text "  x  ",
         .close "v", .close "c", .close "row"]).rows =
      [⟨0, [⟨"", none, none, some "x", none⟩], none, false⟩] := by
  constructor
  · intro s
    have key : parse_shared_strings_impl
        [.start "sst" [], .start "si" [], .start "t" [], .text s,
         .close "t", .close "si", .close "sst"] = [("" : String) ++ s] := rfl
    rw [key, String.empty_append]
  · decide

/-- C2: none of the five extractors surfaces a failure — each returns its
plain record structure, and on a stream that fails mid-way (an error event
after the well-formed prefix evs) each extractor returns exactly what it
accumulated over evs, ignoring everything from the failure point on. -/
theorem C2_truncation_returns_partial (evs rest : List XmlEvent)
    (h : XmlEvent.error ∉ evs) :
    parse_worksheet_impl (evs ++ XmlEvent.error :: rest) =
      parse_worksheet_impl evs ∧
    parse_shared_strings_impl (evs ++ XmlEvent.error :: rest) =
      parse_shared_strings_impl evs ∧
    parse_styles_impl (evs ++ XmlEvent.error :: rest) = parse_styles_impl evs ∧
    parse_workbook_impl (evs ++ XmlEvent.error :: rest) =
      parse_workbook_impl evs ∧
    parse_relationships_impl (evs ++ XmlEvent.error :: rest) =
      parse_relationships_impl evs := by
  have htrim : XmlEvent.error ∉ trimEvents evs := trimEvents_error_not_mem evs h
  have hsplit : trimEvents (evs ++ XmlEvent.error :: rest) =
      trimEvents evs ++ XmlEvent.error :: trimEvents rest := by
    rw [trimEvents_append]
    simp [trimEvents, trimEvent]
  refine ⟨?_, ?_, ?_, ?_, ?_⟩
  · unfold parse_worksheet_impl
    rw [hsplit, scan_stop _ _ _ htrim]
  · unfold parse_shared_strings_impl
    rw [scan_stop _ _ _ h]
  · unfold parse_styles_impl
    rw [hsplit, scan_stop _ _ _ htrim]
  · unfold parse_workbook_impl
    rw [hsplit, scan_stop _ _ _ htrim]
  · unfold parse_relationships_impl
    rw [hsplit, scan_stop _ _ _ htrim]

/-- Witness for C2 at a concrete truncated stream: one closed row before the
failure, a second row opening after it. -/
theorem C2_truncation_returns_partial_witness :
    (XmlEvent.error ∉
      [XmlEvent.start "row" [("r", "1")], XmlEvent.close "row"]) ∧
    (parse_worksheet_impl
        ([XmlEvent.start "row" [("r", "1")], XmlEvent.close "row"] ++
          XmlEvent.error :: [XmlEvent.start "row" [("r", "2")]]) =
      parse_worksheet_impl
        [XmlEvent.start "row" [("r", "1")], XmlEvent.close "row"] ∧
    parse_shared_strings_impl
        ([XmlEvent.start "row" [("r", "1")], XmlEvent.close "row"] ++
          XmlEvent.error :: [XmlEvent.start "row" [("r", "2")]]) =
      parse_shared_strings_impl
        [XmlEvent.start "row" [("r", "1")], XmlEvent.close "row"] ∧
    parse_styles_impl
        ([XmlEvent.start "row" [("r", "1")], XmlEvent.close "row"] ++
          XmlEvent.error :: [XmlEvent.start "row" [("r", "2")]]) =
      parse_styles_impl
        [XmlEvent.start "row" [("r", "1")], XmlEvent.close "row"] ∧
    parse_workbook_impl
        ([XmlEvent.start "row" [("r", "1")], XmlEvent.close "row"] ++
          XmlEvent.error :: [XmlEvent.start "row" [("r", "2")]]) =
      parse_workbook_impl
        [XmlEvent.start "row" [("r", "1")], XmlEvent.close "row"] ∧
    parse_relationships_impl
        ([XmlEvent.start "row" [("r", "1")], XmlEvent.close "row"] ++
          XmlEvent.error :: [XmlEvent.start "row" [("r", "2")]]) =
      parse_relationships_impl
        [XmlEvent.start "row" [("r", "1")], XmlEvent.close "row"]) :=
  ⟨by decide,
   C2_truncation_returns_partial
     [XmlEvent.start "row" [("r", "1")], XmlEvent.close "row"]
     [XmlEvent.start "row" [("r", "2")]] (by decide)⟩

/-- C8: when a v element closes while a Cell builder is open the text
buffer is assigned to the cell's value even if empty; when an f element
closes the buffer is assigned to the formula only if non-empty. -/
theorem C8_value_always_formula_nonempty (st : WsState) (cell : ParsedCell)
    (h : st.current_cell = some cell) :
    wsStep st (XmlEvent.close "v") =
      { st with
          in_value := false,
          current_cell := some { cell with value := some st.text_content } } ∧
    wsStep st (XmlEvent.close "f") =
      { st with
          in_formula := false,
          current_cell := some
            (if st.text_content = "" then cell
             else { cell with formula := some st.text_content }) } := by
  constructor
  · have key : wsStep st (XmlEvent.close "v") =
        { st with
            in_value := false,
            current_cell := st.current_cell.map
              (fun c => { c with value := some st.text_content }) } := rfl
    rw [key, h]
    rfl
  · have key : wsStep st (XmlEvent.close "f") =
        { st with
            in_formula := false,
            current_cell := st.current_cell.map
              (fun c =>
                if st.text_content = "" then c
                else { c with formula := some st.text_content }) } := rfl
    rw [key, h]
    rfl

/-- Witness for C8 at a concrete state with an open cell builder and an
empty buffer: closing v stores value (some ""), closing f leaves the
formula absent. -/
theorem C8_value_always_formula_nonempty_witness :
    wsStep
        ⟨⟨[], [], [], fun _ => none⟩, none,
          some ⟨"A1", none, none, none, none⟩, true, false, false, ""⟩
        (XmlEvent.close "v") =
      ⟨⟨[], [], [], fun _ => none⟩, none,
        some ⟨"A1", none, none, some "", none⟩, false, false, false, ""⟩ ∧
    wsStep
        ⟨⟨[], [], [], fun _ => none⟩, none,
          some ⟨"A1", none, none, none, none⟩, true, false, false, ""⟩
        (XmlEvent.close "f") =
      ⟨⟨[], [], [], fun _ => none⟩, none,
        some ⟨"A1", none, none, none, none⟩, true, false, false, ""⟩ :=
  C8_value_always_formula_nonempty
    ⟨⟨[], [], [], fun _ => none⟩, none,
      some ⟨"A1", none, none, none, none⟩, true, false, false, ""⟩
    ⟨"A1", none, none, none, none⟩ rfl

/-- C6: an invalid r attribute on a row never aborts the document and never
drops the row — for any error-free prefix, a row element whose r attribute
fails to parse as u32 still appends its Row record, with row number 0. -/
theorem C6_invalid_row_number_defaults_zero (pre : List XmlEvent) (s : String)
    (hpre : XmlEvent.error ∉ pre) (hs : parseU32 s = none) :
    (parse_worksheet_impl
        (pre ++ [XmlEvent.start "row" [("r", s)], XmlEvent.close "row"])).rows =
      (parse_worksheet_impl pre).rows ++ [⟨0, [], none, false⟩] := by
  unfold parse_worksheet_impl
  rw [trimEvents_append, scan_append _ _ _ (trimEvents_error_not_mem pre hpre)]
  have key : (scan wsStep (scan wsStep wsInit (trimEvents pre))
      (trimEvents [XmlEvent.start "row" [("r", s)],
        XmlEvent.close "row"])).worksheet.rows =
      (scan wsStep wsInit (trimEvents pre)).worksheet.rows ++
        [⟨(parseU32 s).getD 0, [], none, false⟩] := rfl
  rw [key, hs]
  rfl

/-- Witness for C6: the row attribute r="abc" fails to parse and the row is
kept with row number 0. -/
theorem C6_invalid_row_number_defaults_zero_witness :
    parseU32 "abc" = none ∧
    (parse_worksheet_impl
        ([] ++ [XmlEvent.start "row" [("r", "abc")], XmlEvent.close "row"])).rows =
      (parse_worksheet_impl []).rows ++ [⟨0, [], none, false⟩] :=
  ⟨by decide,
   C6_invalid_row_number_defaults_zero [] "abc" (by decide) (by decide)⟩

theorem ss_runs (ts : List String) :
    ∀ (strs : List String) (w : Bool) (b : String) (tail : List XmlEvent),
      scan ssStep ⟨strs, true, w, b⟩ (runsEvents ts ++ tail) =
        scan ssStep ⟨strs, true, if ts.isEmpty then w else false,
          b ++ concatAll ts⟩ tail := by
  induction ts with
  | nil =>
    intro strs w b tail
    show scan ssStep ⟨strs, true, w, b⟩ tail =
      scan ssStep ⟨strs, true, w, b ++ ""⟩ tail
    rw [String.append_empty]
  | cons s ts ih =>
    intro strs w b tail
    have hsplit : runsEvents (s :: ts) ++ tail =
        runEvents s ++ (runsEvents ts ++ tail) := by
      show (runEvents s ++ runsEvents ts) ++ tail = _
      rw [List.append_assoc]
    rw [hsplit]
    have h5 : scan ssStep ⟨strs, true, w, b⟩
        (runEvents s ++ (runsEvents ts ++ tail)) =
        scan ssStep ⟨strs, true, false, b ++ s⟩ (runsEvents ts ++ tail) := rfl
    rw [h5, ih strs false (b ++ s) tail, ite_self, String.append_assoc]
    rfl

/-- C3: a shared-string entry split across rich-text runs is returned as
the concatenation of the runs' texts in document order (for any error-free
prefix and any list of run texts). -/
theorem C3_rich_text_runs_concatenated (pre : List XmlEvent)
    (ts : List String) (hpre : XmlEvent.error ∉ pre) :
    parse_shared_strings_impl
        (pre ++ XmlEvent.start "si" [] :: (runsEvents ts ++ [XmlEvent.close "si"])) =
      parse_shared_strings_impl pre ++ [concatAll ts] := by
  unfold parse_shared_strings_impl
  rw [scan_append _ _ _ hpre]
  obtain ⟨strs, i, w, b⟩ : SsState := scan ssStep ⟨[], false, false, ""⟩ pre
  have h1 : scan ssStep (⟨strs, i, w, b⟩ : SsState)
      (XmlEvent.start "si" [] :: (runsEvents ts ++ [XmlEvent.close "si"])) =
      scan ssStep ⟨strs, true, w, ""⟩ (runsEvents ts ++ [XmlEvent.close "si"]) := rfl
  rw [h1, ss_runs ts strs w "" [XmlEvent.close "si"]]
  have h2 : ∀ (w' : Bool) (cur : String),
      (scan ssStep (⟨strs, true, w', cur⟩ : SsState)
        [XmlEvent.close "si"]).strings = strs ++ [cur] := fun _ _ => rfl
  rw [h2, String.empty_append]

/-- Witness for C3: the two runs Rich and Text yield the single entry
RichText. -/
theorem C3_rich_text_runs_concatenated_witness :
    (XmlEvent.error ∉ [XmlEvent.start "sst" []]) ∧
    concatAll ["Rich", "Text"] = "RichText" ∧
    parse_shared_strings_impl
        ([XmlEvent.start "sst" []] ++ XmlEvent.start "si" [] ::
          (runsEvents ["Rich", "Text"] ++ [XmlEvent.close "si"])) =
      parse_shared_strings_impl [XmlEvent.start "sst" []] ++
        [concatAll ["Rich", "Text"]] :=
  ⟨by decide, by decide,
   C3_rich_text_runs_concatenated [XmlEvent.start "sst" []] ["Rich", "Text"]
     (by decide)⟩

theorem hyper_fold_ref (attrs : List (String × String)) :
    ∀ (acc : ParsedHyperlink), acc.reference = "" →
      (∀ kv ∈ attrs, kv.1 = "ref" → kv.2 = "") →
      (attrs.foldl
        (fun h kv =>
          if kv.1 = "ref" then { h with reference := kv.2 }
          else if kv.1 = "location" then { h with location := some kv.2 }
          else if kv.1 = "display" then { h with display := some kv.2 }
          else if kv.1 = "tooltip" then { h with tooltip := some kv.2 }
          else if kv.1.endsWith ":id" ∨ kv.1 = "id" then { h with rid := some kv.2 }
          else h) acc).reference = "" := by
  induction attrs with
  | nil => intro acc hacc _; exact hacc
  | cons kv attrs ih =>
    intro acc hacc hall
    rw [List.foldl_cons]
    refine ih _ ?_ (fun kv' hm hr => hall kv' (List.mem_cons_of_mem kv hm) hr)
    split_ifs with h1 h2 h3 h4 h5
    · exact hall kv (List.mem_cons_self kv attrs) h1
    · exact hacc
    · exact hacc
    · exact hacc
    · exact hacc
    · exact hacc

theorem sheet_fold_name (attrs : List (String × String)) :
    ∀ (acc : ParsedSheetInfo), acc.name = "" →
      (∀ kv ∈ attrs, kv.1 = "name" → kv.2 = "") →
      (attrs.foldl
        (fun s kv =>
          if kv.1 = "name" then { s with name := kv.2 }
          else if kv.1 = "sheetId" then { s with sheet_id := (parseU32 kv.2).getD 0 }
          else if kv.1 = "state" then { s with state := some kv.2 }
          else if kv.1.endsWith ":id" ∨ kv.1 = "id" then { s with rid := kv.2 }
          else s) acc).name = "" := by
  induction attrs with
  | nil => intro acc hacc _; exact hacc
  | cons kv attrs ih =>
    intro acc hacc hall
    rw [List.foldl_cons]
    refine ih _ ?_ (fun kv' hm hr => hall kv' (List.mem_cons_of_mem kv hm) hr)
    split_ifs with h1 h2 h3 h4
    · exact hall kv (List.mem_cons_self kv attrs) h1
    · exact hacc
    · exact hacc
    · exact hacc
    · exact hacc

theorem rel_fold_id (attrs : List (String × String)) :
    ∀ (acc : ParsedRelationship), acc.id = "" →
      (∀ kv ∈ attrs, kv.1 = "Id" → kv.2 = "") →
      (attrs.foldl
        (fun r kv =>
          if kv.1 = "Id" then { r with id := kv.2 }
          else if kv.1 = "Type" then { r with rel_type := kv.2 }
          else if kv.1 = "Target" then { r with target := kv.2 }
          else if kv.1 = "TargetMode" then { r with target_mode := some kv.2 }
          else r) acc).id = "" := by
  induction attrs with
  | nil => intro acc hacc _; exact hacc
  | cons kv attrs ih =>
    intro acc hacc hall
    rw [List.foldl_cons]
    refine ih _ ?_ (fun kv' hm hr => hall kv' (List.mem_cons_of_mem kv hm) hr)
    split_ifs with h1 h2 h3 h4
    · exact hall kv (List.mem_cons_self kv attrs) h1
    · exact hacc
    · exact hacc
    · exact hacc
    · exact hacc

/-- C7: records with an empty identifying field are excluded — a hyperlink
with empty (in particular absent) ref contributes no record, a sheet with
empty name contributes none, a Relationship with empty Id contributes none,
and in each case a non-empty identifier contributes exactly one record
appended in document order. -/
theorem C7_empty_identifier_records_dropped (pre : List XmlEvent)
    (attrs : List (String × String)) (hpre : XmlEvent.error ∉ pre) :
    ((parse_worksheet_impl (pre ++ [XmlEvent.empty "hyperlink" attrs])).hyperlinks =
      (parse_worksheet_impl pre).hyperlinks ++
        (if (hyperlinkOfAttrs attrs).reference = "" then []
         else [hyperlinkOfAttrs attrs])) ∧
    ((∀ kv ∈ attrs, kv.1 = "ref" → kv.2 = "") →
      (hyperlinkOfAttrs attrs).reference = "") ∧
    (parse_workbook_impl (pre ++ [XmlEvent.empty "sheet" attrs]) =
      parse_workbook_impl pre ++
        (if (sheetOfAttrs attrs).name = "" then [] else [sheetOfAttrs attrs])) ∧
    ((∀ kv ∈ attrs, kv.1 = "name" → kv.2 = "") → (sheetOfAttrs attrs).name = "") ∧
    (parse_relationships_impl (pre ++ [XmlEvent.empty "Relationship" attrs]) =
      parse_relationships_impl pre ++
        (if (relOfAttrs attrs).id = "" then [] else [relOfAttrs attrs])) ∧
    ((∀ kv ∈ attrs, kv.1 = "Id" → kv.2 = "") → (relOfAttrs attrs).id = "") := by
  refine ⟨?_, ?_, ?_, ?_, ?_, ?_⟩
  · unfold parse_worksheet_impl
    rw [trimEvents_append, scan_append _ _ _ (trimEvents_error_not_mem pre hpre)]
    have key : (scan wsStep (scan wsStep wsInit (trimEvents pre))
        (trimEvents [XmlEvent.empty "hyperlink" attrs])).worksheet.hyperlinks =
        (if (hyperlinkOfAttrs attrs).reference = "" then
          (scan wsStep wsInit (trimEvents pre)).worksheet.hyperlinks
         else (scan wsStep wsInit (trimEvents pre)).worksheet.hyperlinks ++
          [hyperlinkOfAttrs attrs]) := by
      by_cases hc : (hyperlinkOfAttrs attrs).reference = ""
      · rw [if_pos hc]
        show (wsStep (scan wsStep wsInit (trimEvents pre))
          (XmlEvent.empty "hyperlink" attrs)).worksheet.hyperlinks = _
        have step : wsStep (scan wsStep wsInit (trimEvents pre))
            (XmlEvent.empty "hyperlink" attrs) =
            (if (hyperlinkOfAttrs attrs).reference = "" then
              scan wsStep wsInit (trimEvents pre)
             else
              { scan wsStep wsInit (trimEvents pre) with
                  worksheet := { (scan wsStep wsInit (trimEvents pre)).worksheet with
                    hyperlinks :=
                      (scan wsStep wsInit (trimEvents pre)).worksheet.hyperlinks ++
                        [hyperlinkOfAttrs attrs] } }) := rfl
        rw [step, if_pos hc]
      · rw [if_neg hc]
        have step : wsStep (scan wsStep wsInit (trimEvents pre))
            (XmlEvent.empty "hyperlink" attrs) =
            (if (hyperlinkOfAttrs attrs).reference = "" then
              scan wsStep wsInit (trimEvents pre)
             else
              { scan wsStep wsInit (trimEvents pre) with
                  worksheet := { (scan wsStep wsInit (trimEvents pre)).worksheet with
                    hyperlinks :=
                      (scan wsStep wsInit (trimEvents pre)).worksheet.hyperlinks ++
                        [hyperlinkOfAttrs attrs] } }) := rfl
        show (wsStep (scan wsStep wsInit (trimEvents pre))
          (XmlEvent.empty "hyperlink" attrs)).worksheet.hyperlinks = _
        rw [step, if_neg hc]
    rw [key]
    by_cases hc : (hyperlinkOfAttrs attrs).reference = ""
    · rw [if_pos hc, if_pos hc, List.append_nil]
    · rw [if_neg hc, if_neg hc]
  · exact fun h => hyper_fold_ref attrs _ rfl h
  · unfold parse_workbook_impl
    rw [trimEvents_append, scan_append _ _ _ (trimEvents_error_not_mem pre hpre)]
    have key : scan wbStep (scan wbStep [] (trimEvents pre))
        (trimEvents [XmlEvent.empty "sheet" attrs]) =
        (if (sheetOfAttrs attrs).name = "" then scan wbStep [] (trimEvents pre)
         else scan wbStep [] (trimEvents pre) ++ [sheetOfAttrs attrs]) := rfl
    rw [key]
    by_cases hc : (sheetOfAttrs attrs).name = ""
    · rw [if_pos hc, if_pos hc, List.append_nil]
    · rw [if_neg hc, if_neg hc]
  · exact fun h => sheet_fold_name attrs _ rfl h
  · unfold parse_relationships_impl
    rw [trimEvents_append, scan_append _ _ _ (trimEvents_error_not_mem pre hpre)]
    have key : scan relStep (scan relStep [] (trimEvents pre))
        (trimEvents [XmlEvent.empty "Relationship" attrs]) =
        (if (relOfAttrs attrs).id = "" then scan relStep [] (trimEvents pre)
         else scan relStep [] (trimEvents pre) ++ [relOfAttrs attrs]) := rfl
    rw [key]
    by_cases hc : (relOfAttrs attrs).id = ""
    · rw [if_pos hc, if_pos hc, List.append_nil]
    · rw [if_neg hc, if_neg hc]
  · exact fun h => rel_fold_id attrs _ rfl h

/-- Witness for C7: a hyperlink without ref, a sheet without name and a
Relationship without Id are dropped, while a sheet with a name is kept. -/
theorem C7_empty_identifier_records_dropped_witness :
    (parse_worksheet_impl [XmlEvent.empty "hyperlink" [("location", "x")]]).hyperlinks = [] ∧
    parse_workbook_impl [XmlEvent.empty "sheet" [("sheetId", "1")]] = [] ∧
    parse_relationships_impl [XmlEvent.empty "Relationship" [("Target", "t")]] = [] ∧
    parse_workbook_impl [XmlEvent.empty "sheet" [("name", "S1")]] =
      [⟨"S1", 0, "", none⟩] := by
  have h1 := C7_empty_identifier_records_dropped [] [("location", "x")] (by decide)
  have h2 := C7_empty_identifier_records_dropped [] [("sheetId", "1")] (by decide)
  have h3 := C7_empty_identifier_records_dropped [] [("Target", "t")] (by decide)
  have h4 := C7_empty_identifier_records_dropped [] [("name", "S1")] (by decide)
  exact ⟨h1.1, h2.2.2.1, h3.2.2.2.2.1, h4.2.2.1⟩

theorem insertColsAux_spec (w : F64) :
    ∀ (cnt start : Nat) (f : Nat → Option F64) (j : Nat),
      insertColsAux w start cnt f j =
        if start ≤ j ∧ j < start + cnt then some w else f j := by
  intro cnt
  induction cnt with
  | zero =>
    intro start f j
    have : ¬ (start ≤ j ∧ j < start + 0) := by omega
    rw [insertColsAux, if_neg this]
  | succ k ih =>
    intro start f j
    rw [insertColsAux, ih (start + 1)]
    by_cases hj : j = start
    · by_cases hcase : start + 1 ≤ j ∧ j < start + 1 + k
      · rw [if_pos hcase, if_pos (by omega)]
      · rw [if_neg hcase, if_pos hj, if_pos (by omega)]
    · by_cases hcase : start + 1 ≤ j ∧ j < start + 1 + k
      · rw [if_pos hcase, if_pos (by omega)]
      · rw [if_neg hcase, if_neg hj, if_neg (by omega)]

theorem insertCols_mem (f : Nat → Option F64) (mn mx : Nat) (w : F64)
    (k : Nat) (h1 : mn ≤ k) (h2 : k ≤ mx) : insertCols f mn mx w k = some w := by
  rw [insertCols, insertColsAux_spec, if_pos (by omega)]

theorem ws_col_step (st : WsState) (attrs : List (String × String))
    (mn mx : Nat) (w : F64)
    (h : colOfAttrs attrs = (some mn, some mx, some w)) :
    wsStep st (XmlEvent.empty "col" attrs) =
      { st with worksheet :=
          { st.worksheet with
              col_widths := insertCols st.worksheet.col_widths mn mx w } } := by
  have key : wsStep st (XmlEvent.empty "col" attrs) =
      (match colOfAttrs attrs with
       | (some mn, some mx, some w) =>
         { st with worksheet :=
             { st.worksheet with
                 col_widths := insertCols st.worksheet.col_widths mn mx w } }
       | _ => st) := rfl
  rw [key, h]

theorem wsStep_colwidths (st : WsState) (e : XmlEvent)
    (he : isColOpen e = false) :
    (wsStep st e).worksheet.col_widths = st.worksheet.col_widths := by
  cases e with
  | start n attrs =>
    have hn : ¬ n = "col" := by simpa [isColOpen] using he
    show (wsOpen st n attrs).worksheet.col_widths = _
    unfold wsOpen
    split_ifs <;>
      first
      | rfl
      | exact absurd ‹n = "col"› hn
      | (dsimp only; split <;> rfl)
  | empty n attrs =>
    have hn : ¬ n = "col" := by simpa [isColOpen] using he
    show (wsOpen st n attrs).worksheet.col_widths = _
    unfold wsOpen
    split_ifs <;>
      first
      | rfl
      | exact absurd ‹n = "col"› hn
      | (dsimp only; split <;> rfl)
  | close n =>
    show (wsClose st n).worksheet.col_widths = _
    unfold wsClose
    split_ifs <;> first | rfl | (split <;> rfl) | (split <;> (try split) <;> rfl)
  | text s =>
    show (if st.in_value || st.in_formula || st.in_inline_str then
        { st with text_content := st.text_content ++ s }
      else st).worksheet.col_widths = _
    split <;> rfl
  | error => rfl

theorem scan_colwidths (evs : List XmlEvent)
    (h : ∀ e ∈ evs, isColOpen e = false) (st : WsState) :
    (scan wsStep st evs).worksheet.col_widths = st.worksheet.col_widths := by
  induction evs generalizing st with
  | nil => rfl
  | cons e evs ih =>
    cases herr : e.isError with
    | true => simp [scan, herr]
    | false =>
      rw [scan_cons_ok _ _ _ _ herr,
        ih (fun x hx => h x (List.mem_cons_of_mem e hx)),
        wsStep_colwidths st e (h e (List.mem_cons_self e evs))]

theorem trim_colfree (rest : List XmlEvent)
    (h : ∀ e ∈ rest, isColOpen e = false) :
    ∀ e ∈ trimEvents rest, isColOpen e = false := by
  intro e he
  rcases List.mem_flatMap.1 he with ⟨x, hx, hmem⟩
  cases x with
  | text s =>
    simp only [trimEvent] at hmem
    split at hmem <;> simp_all [isColOpen]
  | start n attrs =>
    simp only [trimEvent, List.mem_singleton] at hmem
    exact hmem ▸ h _ hx
  | empty n attrs =>
    simp only [trimEvent, List.mem_singleton] at hmem
    exact hmem ▸ h _ hx
  | close n =>
    simp only [trimEvent, List.mem_singleton] at hmem
    exact hmem ▸ h _ hx
  | error =>
    simp only [trimEvent, List.mem_singleton] at hmem
    exact hmem ▸ h _ hx

/-- C5: a col element whose min, max and width attributes all parse maps
every column index in the inclusive range to that width, for any error-free
prefix and any continuation containing no further col element; and since
the extractor is a pure function of the document, running it twice on the
same document yields the same column-width map (the second conjunct holds
by reflexivity). -/
theorem C5_col_width_inclusive_idempotent (pre rest : List XmlEvent)
    (attrs : List (String × String)) (mn mx : Nat) (w : F64) (k : Nat)
    (hpre : XmlEvent.error ∉ pre)
    (hattrs : colOfAttrs attrs = (some mn, some mx, some w))
    (hrest : ∀ e ∈ rest, isColOpen e = false)
    (h1 : mn ≤ k) (h2 : k ≤ mx) :
    (parse_worksheet_impl
        (pre ++ XmlEvent.empty "col" attrs :: rest)).col_widths k = some w ∧
    (parse_worksheet_impl (pre ++ XmlEvent.empty "col" attrs :: rest)).col_widths =
      (parse_worksheet_impl (pre ++ XmlEvent.empty "col" attrs :: rest)).col_widths := by
  refine ⟨?_, rfl⟩
  unfold parse_worksheet_impl
  rw [trimEvents_append, scan_append _ _ _ (trimEvents_error_not_mem pre hpre)]
  have hsplit : trimEvents (XmlEvent.empty "col" attrs :: rest) =
      XmlEvent.empty "col" attrs :: trimEvents rest := rfl
  rw [hsplit,
    scan_cons_ok wsStep (scan wsStep wsInit (trimEvents pre))
      (XmlEvent.empty "col" attrs) (trimEvents rest) rfl,
    ws_col_step _ _ _ _ _ hattrs,
    scan_colwidths (trimEvents rest) (trim_colfree rest hrest)]
  exact insertCols_mem _ mn mx w k h1 h2

/-- Witness for C5: min=2, max=4, width=15 gives width 15 to column 3. -/
theorem C5_col_width_inclusive_idempotent_witness :
    colOfAttrs [("min", "2"), ("max", "4"), ("width", "15")] =
      (some 2, some 4, some ⟨"15"⟩) ∧
    (parse_worksheet_impl
        ([] ++ XmlEvent.empty "col" [("min", "2"), ("max", "4"), ("width", "15")] ::
          [])).col_widths 3 = some ⟨"15"⟩ :=
  ⟨by decide,
   (C5_col_width_inclusive_idempotent []
     [] [("min", "2"), ("max", "4"), ("width", "15")] 2 4 ⟨"15"⟩ 3
     (by decide) (by decide) (by decide) (by decide) (by decide)).1⟩

/-- C9 counterexample: after a self-closing left side element has ended, a
following color element still modifies the left side — the recorded side
name is only cleared by an explicit side close event, so the parsed border
carries left_color FF0000 where the claim predicts an untouched border. -/
theorem C9_border_side_counterexample :
    (parse_styles_impl
        [XmlEvent.start "borders" [], XmlEvent.start "border" [],
         XmlEvent.empty "left" [],
         XmlEvent.empty "color" [("rgb", "FF0000")],
         XmlEvent.close "border", XmlEvent.close "borders"]).borders =
      [⟨none, some "FF0000", none, none, none, none, none, none⟩] := by
  decide

/-- C9 amended: while a Border builder is open, a side open tag (Start or —
self-closing — Empty) records the side name and folds its style attribute
into the matching field; a color element, reachable only while a side name
is recorded (and no Font builder is open), folds rgb into that side's color
field; an explicit side close event clears the recorded name, but a
self-closing side element leaves it recorded, so a following color element
still modifies that side; with no side recorded, a color element leaves the
border state untouched. -/
theorem C9_border_side_routing (st : StState) (b : ParsedBorder)
    (attrs : List (String × String)) (hb : st.current_border = some b) :
    (∀ n, n = "left" ∨ n = "right" ∨ n = "top" ∨ n = "bottom" →
      stStep st (XmlEvent.start n attrs) =
        { st with
            current_border_side := some n,
            current_border := some (attrs.foldl
              (fun bb kv => if kv.1 = "style" then setSideStyle bb n kv.2 else bb)
              b) } ∧
      stStep st (XmlEvent.empty n attrs) =
        { st with
            current_border_side := some n,
            current_border := some (attrs.foldl
              (fun bb kv => if kv.1 = "style" then setSideStyle bb n kv.2 else bb)
              b) }) ∧
    (∀ s, st.current_border_side = some s → st.current_font = none →
      stStep st (XmlEvent.start "color" attrs) =
        { st with
            current_border := some (attrs.foldl
              (fun bb kv => if kv.1 = "rgb" then setSideColor bb s kv.2 else bb)
              b) }) ∧
    (∀ n, n = "left" ∨ n = "right" ∨ n = "top" ∨ n = "bottom" →
      (stStep st (XmlEvent.close n)).current_border_side = none) ∧
    (st.current_border_side = none →
      (stStep st (XmlEvent.start "color" attrs)).current_border =
        st.current_border ∧
      (stStep st (XmlEvent.start "color" attrs)).styles.borders =
        st.styles.borders) := by
  refine ⟨?_, ?_, ?_, ?_⟩
  · intro n hn
    rcases hn with rfl | rfl | rfl | rfl <;>
      constructor <;>
      · first
        | (show (if st.current_border.isSome then _ else st) = _
           rw [hb]
           rfl)
  · intro s hside hfont
    have key : stStep st (XmlEvent.start "color" attrs) =
        (if st.current_font.isSome then
          { st with
              current_font := st.current_font.map
                (fun f => attrs.foldl
                  (fun f kv =>
                    if kv.1 = "rgb" then { f with color := some kv.2 } else f) f) }
         else if st.current_border_side.isSome then
          { st with
              current_border := st.current_border.map
                (fun bb => attrs.foldl
                  (fun bb kv =>
                    if kv.1 = "rgb" then
                      setSideColor bb (st.current_border_side.getD "") kv.2
                    else bb) bb) }
         else st) := rfl
    rw [key, hfont, hside, hb]
    rfl
  · intro n hn
    rcases hn with rfl | rfl | rfl | rfl <;> rfl
  · intro hside
    have key : stStep st (XmlEvent.start "color" attrs) =
        (if st.current_font.isSome then
          { st with
              current_font := st.current_font.map
                (fun f => attrs.foldl
                  (fun f kv =>
                    if kv.1 = "rgb" then { f with color := some kv.2 } else f) f) }
         else if st.current_border_side.isSome then
          { st with
              current_border := st.current_border.map
                (fun bb => attrs.foldl
                  (fun bb kv =>
                    if kv.1 = "rgb" then
                      setSideColor bb (st.current_border_side.getD "") kv.2
                    else bb) bb) }
         else st) := rfl
    cases hcf : st.current_font with
    | none => rw [key, hcf, hside]; exact ⟨rfl, rfl⟩
    | some f => rw [key, hcf]; exact ⟨rfl, rfl⟩

/-- Witness for the amended C9 at a concrete state: a self-closing left
with style thin records side and style; a color element then routes rgb to
left_color; an explicit close clears the side name. -/
theorem C9_border_side_routing_witness :
    stStep
        ⟨⟨[], [], [], [], fun _ => none⟩, false, false, false, true, false,
          none, none, some defaultBorder, false, none⟩
        (XmlEvent.empty "left" [("style", "thin")]) =
      ⟨⟨[], [], [], [], fun _ => none⟩, false, false, false, true, false,
        none, none,
        some ⟨some "thin", none, none, none, none, none, none, none⟩,
        false, some "left"⟩ ∧
    stStep
        ⟨⟨[], [], [], [], fun _ => none⟩, false, false, false, true, false,
          none, none, some defaultBorder, false, some "left"⟩
        (XmlEvent.start "color" [("rgb", "FF0000")]) =
      ⟨⟨[], [], [], [], fun _ => none⟩, false, false, false, true, false,
        none, none,
        some ⟨none, some "FF0000", none, none, none, none, none, none⟩,
        false, some "left"⟩ ∧
    (stStep
        ⟨⟨[], [], [], [], fun _ => none⟩, false, false, false, true, false,
          none, none, some defaultBorder, false, some "left"⟩
        (XmlEvent.close "left")).current_border_side = none := by
  have h1 := C9_border_side_routing
    ⟨⟨[], [], [], [], fun _ => none⟩, false, false, false, true, false,
      none, none, some defaultBorder, false, none⟩
    defaultBorder [("style", "thin")] rfl
  have h2 := C9_border_side_routing
    ⟨⟨[], [], [], [], fun _ => none⟩, false, false, false, true, false,
      none, none, some defaultBorder, false, some "left"⟩
    defaultBorder [("rgb", "FF0000")] rfl
  exact ⟨(h1.1 "left" (Or.inl rfl)).2,
         h2.2.1 "left" rfl rfl,
         h2.2.2.1 "left" (Or.inl rfl)⟩

theorem row_fold_cells (attrs : List (String × String)) :
    ∀ acc : ParsedRow,
      (attrs.foldl
        (fun row kv =>
          if kv.1 = "r" then { row with row_num := (parseU32 kv.2).getD 0 }
          else if kv.1 = "ht" then { row with height := parseF64 kv.2 }
          else if kv.1 = "hidden" then
            { row with hidden := kv.2 = "1" ∨ kv.2 = "true" }
          else row) acc).cells = acc.cells := by
  induction attrs with
  | nil => intro acc; rfl
  | cons kv attrs ih =>
    intro acc
    rw [List.foldl_cons, ih]
    split_ifs <;> rfl

theorem rowOfAttrs_cells (attrs : List (String × String)) :
    (rowOfAttrs attrs).cells = [] :=
  row_fold_cells attrs ⟨0, [], none, false⟩

theorem projQ_open (st : WsState) (n : String) (attrs : List (String × String)) :
    projQ (wsOpen st n attrs) = qOpen (projQ st) n := by
  unfold wsOpen qOpen
  by_cases h1 : n = "row"
  · rw [if_pos h1, if_pos h1]
    simp [projQ, rowOfAttrs_cells]
  rw [if_neg h1, if_neg h1]
  by_cases h2 : n = "c"
  · rw [if_pos h2, if_pos h2]
    rfl
  rw [if_neg h2, if_neg h2]
  by_cases h3 : n = "v"
  · rw [if_pos h3]; rfl
  rw [if_neg h3]
  by_cases h4 : n = "f"
  · rw [if_pos h4]; rfl
  rw [if_neg h4]
  by_cases h5 : n = "is"
  · rw [if_pos h5]; rfl
  rw [if_neg h5]
  by_cases h6 : n = "col"
  · rw [if_pos h6]
    split <;> rfl
  rw [if_neg h6]
  by_cases h7 : n = "mergeCell"
  · rw [if_pos h7]; rfl
  rw [if_neg h7]
  by_cases h8 : n = "hyperlink"
  · rw [if_pos h8]
    dsimp only
    split <;> rfl
  rw [if_neg h8]

theorem projQ_close (st : WsState) (n : String) :
    projQ (wsClose st n) = qStep (projQ st) (XmlEvent.close n) := by
  show projQ (wsClose st n) =
    (if n = "row" then
      match (projQ st).cr with
      | some k => ⟨(projQ st).rs ++ [k], none, (projQ st).cc⟩
      | none => projQ st
     else if n = "c" then
      if (projQ st).cc then
        ⟨(projQ st).rs, (projQ st).cr.map (· + 1), false⟩
      else projQ st
     else projQ st)
  unfold wsClose
  by_cases h1 : n = "row"
  · rw [if_pos h1, if_pos h1]
    cases hcr : st.current_row with
    | none => simp [projQ, hcr]
    | some r => simp [projQ, hcr]
  rw [if_neg h1, if_neg h1]
  by_cases h2 : n = "c"
  · rw [if_pos h2, if_pos h2]
    cases hcc : st.current_cell with
    | none => simp [projQ, hcc]
    | some cell =>
      cases hcr : st.current_row with
      | none => simp [projQ, hcc, hcr]
      | some r => simp [projQ, hcc, hcr]
  rw [if_neg h2, if_neg h2]
  by_cases h3 : n = "v"
  · rw [if_pos h3]
    cases hcc : st.current_cell <;> simp [projQ, hcc]
  rw [if_neg h3]
  by_cases h4 : n = "f"
  · rw [if_pos h4]
    cases hcc : st.current_cell <;> simp [projQ, hcc]
  rw [if_neg h4]
  by_cases h5 : n = "is"
  · rw [if_pos h5]
    cases hcc : st.current_cell <;> simp [projQ, hcc]
  rw [if_neg h5]

theorem projQ_step (st : WsState) (e : XmlEvent) :
    projQ (wsStep st e) = qStep (projQ st) e := by
  cases e with
  | start n attrs => exact projQ_open st n attrs
  | empty n attrs => exact projQ_open st n attrs
  | close n => exact projQ_close st n
  | text s =>
    show projQ (if st.in_value || st.in_formula || st.in_inline_str then
        { st with text_content := st.text_content ++ s }
      else st) = projQ st
    split <;> rfl
  | error => rfl

theorem projQ_scan (evs : List XmlEvent) :
    ∀ st : WsState, projQ (scan wsStep st evs) = scan qStep (projQ st) evs := by
  induction evs with
  | nil => intro st; rfl
  | cons e evs ih =>
    intro st
    cases herr : e.isError with
    | true =>
      have he : e = XmlEvent.error := by
        cases e <;> simp_all [XmlEvent.isError]
      subst he
      rfl
    | false =>
      rw [scan_cons_ok _ _ _ _ herr, scan_cons_ok _ _ _ _ herr, ih,
        projQ_step]

theorem qscan_trim (evs : List XmlEvent) :
    ∀ q : QState, scan qStep q (trimEvents evs) = scan qStep q evs := by
  induction evs with
  | nil => intro q; rfl
  | cons e evs ih =>
    intro q
    cases e with
    | text s =>
      show scan qStep q (trimEvent (XmlEvent.text s) ++ trimEvents evs) =
        scan qStep q (XmlEvent.text s :: evs)
      by_cases hx : xmlTrim s = ""
      · rw [show trimEvent (XmlEvent.text s) = [] from by
          simp [trimEvent, hx]]
        rw [List.nil_append, ih]
        exact (scan_cons_ok qStep q (XmlEvent.text s) evs rfl).symm
      · rw [show trimEvent (XmlEvent.text s) = [XmlEvent.text (xmlTrim s)] from by
          simp [trimEvent, hx]]
        rw [List.cons_append, List.nil_append,
          scan_cons_ok qStep q (XmlEvent.text (xmlTrim s)) (trimEvents evs) rfl,
          ih]
        exact (scan_cons_ok qStep q (XmlEvent.text s) evs rfl).symm
    | error =>
      show scan qStep q (XmlEvent.error :: trimEvents evs) =
        scan qStep q (XmlEvent.error :: evs)
      rfl
    | start n attrs =>
      show scan qStep q (XmlEvent.start n attrs :: trimEvents evs) =
        scan qStep q (XmlEvent.start n attrs :: evs)
      rw [scan_cons_ok qStep q (XmlEvent.start n attrs) (trimEvents evs) rfl,
        scan_cons_ok qStep q (XmlEvent.start n attrs) evs rfl, ih]
    | empty n attrs =>
      show scan qStep q (XmlEvent.empty n attrs :: trimEvents evs) =
        scan qStep q (XmlEvent.empty n attrs :: evs)
      rw [scan_cons_ok qStep q (XmlEvent.empty n attrs) (trimEvents evs) rfl,
        scan_cons_ok qStep q (XmlEvent.empty n attrs) evs rfl, ih]
    | close n =>
      show scan qStep q (XmlEvent.close n :: trimEvents evs) =
        scan qStep q (XmlEvent.close n :: evs)
      rw [scan_cons_ok qStep q (XmlEvent.close n) (trimEvents evs) rfl,
        scan_cons_ok qStep q (XmlEvent.close n) evs rfl, ih]

theorem qOpen_other (q : QState) (n : String) (h1 : ¬ n = "row")
    (h2 : ¬ n = "c") : qOpen q n = q := by
  unfold qOpen
  rw [if_neg h1, if_neg h2]

theorem qClose_other (q : QState) (n : String) (h1 : ¬ n = "row")
    (h2 : ¬ n = "c") : qStep q (XmlEvent.close n) = q := by
  show (if n = "row" then
      match q.cr with
      | some k => ⟨q.rs ++ [k], none, q.cc⟩
      | none => q
    else if n = "c" then
      if q.cc then ⟨q.rs, q.cr.map (· + 1), false⟩ else q
    else q) = q
  rw [if_neg h1, if_neg h2]

mutual
theorem q_noRowC_tree (t : XmlTree) (h : noRowC t = true) :
    ∀ (q : QState) (tail : List XmlEvent),
      scan qStep q (t.events ++ tail) = scan qStep q tail := by
  cases t with
  | text s =>
    intro q tail
    exact scan_cons_ok qStep q (XmlEvent.text s) tail rfl
  | selfClosing n attrs =>
    intro q tail
    have hn : ¬ n = "row" ∧ ¬ n = "c" := by
      simpa [noRowC] using h
    show scan qStep q (XmlEvent.empty n attrs :: tail) = scan qStep q tail
    rw [scan_cons_ok qStep q (XmlEvent.empty n attrs) tail rfl,
      show qStep q (XmlEvent.empty n attrs) = q from qOpen_other q n hn.1 hn.2]
  | elem n attrs cs =>
    intro q tail
    have hn : (¬ n = "row" ∧ ¬ n = "c") ∧ noRowCForest cs = true := by
      simpa [noRowC] using h
    show scan qStep q
      ((XmlEvent.start n attrs :: (XmlForest.events cs ++ [XmlEvent.close n])) ++ tail) =
      scan qStep q tail
    rw [List.cons_append, List.append_assoc, List.singleton_append,
      scan_cons_ok qStep q (XmlEvent.start n attrs)
        (XmlForest.events cs ++ (XmlEvent.close n :: tail)) rfl,
      show qStep q (XmlEvent.start n attrs) = q from qOpen_other q n hn.1.1 hn.1.2,
      q_noRowC_forest cs hn.2 q (XmlEvent.close n :: tail),
      scan_cons_ok qStep q (XmlEvent.close n) tail rfl,
      qClose_other q n hn.1.1 hn.1.2]

theorem q_noRowC_forest (ts : XmlForest) (h : noRowCForest ts = true) :
    ∀ (q : QState) (tail : List XmlEvent),
      scan qStep q (ts.events ++ tail) = scan qStep q tail := by
  cases ts with
  | nil => intro q tail; rfl
  | cons t ts =>
    intro q tail
    have hs : noRowC t = true ∧ noRowCForest ts = true := by
      simpa [noRowCForest] using h
    show scan qStep q ((t.events ++ ts.events) ++ tail) = scan qStep q tail
    rw [List.append_assoc, q_noRowC_tree t hs.1 q (ts.events ++ tail),
      q_noRowC_forest ts hs.2 q tail]
end

theorem q_rowChild (t : XmlTree) (h : rowChild t = true) :
    ∀ (R : List Nat) (k : Nat) (c : Bool), ∃ c', ∀ tail : List XmlEvent,
      scan qStep ⟨R, some k, c⟩ (t.events ++ tail) =
        scan qStep ⟨R, some (k + cOne t), c'⟩ tail := by
  cases t with
  | text s =>
    intro R k c
    refine ⟨c, fun tail => ?_⟩
    rw [show XmlTree.events (.text s) ++ tail = XmlEvent.text s :: tail from rfl,
      scan_cons_ok qStep _ (XmlEvent.text s) tail rfl,
      show cOne (.text s) = 0 from rfl, Nat.add_zero]
    rfl
  | selfClosing n attrs =>
    intro R k c
    have hn : ¬ n = "row" := by simpa [rowChild] using h
    by_cases hc : n = "c"
    · subst hc
      refine ⟨true, fun tail => ?_⟩
      rw [show XmlTree.events (.selfClosing "c" attrs) ++ tail =
          XmlEvent.empty "c" attrs :: tail from rfl,
        scan_cons_ok qStep _ (XmlEvent.empty "c" attrs) tail rfl,
        show cOne (.selfClosing "c" attrs) = 0 from rfl, Nat.add_zero]
      rfl
    · refine ⟨c, fun tail => ?_⟩
      rw [show XmlTree.events (.selfClosing n attrs) ++ tail =
          XmlEvent.empty n attrs :: tail from rfl,
        scan_cons_ok qStep _ (XmlEvent.empty n attrs) tail rfl,
        show qStep (⟨R, some k, c⟩ : QState) (XmlEvent.empty n attrs) =
          qOpen ⟨R, some k, c⟩ n from rfl,
        qOpen_other _ n hn hc,
        show cOne (.selfClosing n attrs) = 0 from rfl, Nat.add_zero]
  | elem n attrs cs =>
    intro R k c
    have hn : ¬ n = "row" ∧ noRowCForest cs = true := by
      simpa [rowChild] using h
    by_cases hc : n = "c"
    · subst hc
      refine ⟨false, fun tail => ?_⟩
      rw [show XmlTree.events (.elem "c" attrs cs) ++ tail =
          XmlEvent.start "c" attrs ::
            (XmlForest.events cs ++ (XmlEvent.close "c" :: tail)) from by
          show (XmlEvent.start "c" attrs ::
            (XmlForest.events cs ++ [XmlEvent.close "c"])) ++ tail = _
          rw [List.cons_append, List.append_assoc, List.singleton_append],
        scan_cons_ok qStep _ (XmlEvent.start "c" attrs) _ rfl]
      rw [show qStep (⟨R, some k, c⟩ : QState) (XmlEvent.start "c" attrs) =
          (⟨R, some k, true⟩ : QState) from rfl,
        q_noRowC_forest cs hn.2 _ (XmlEvent.close "c" :: tail),
        scan_cons_ok qStep _ (XmlEvent.close "c") tail rfl]
      rfl
    · refine ⟨c, fun tail => ?_⟩
      rw [show XmlTree.events (.elem n attrs cs) ++ tail =
          XmlEvent.start n attrs ::
            (XmlForest.events cs ++ (XmlEvent.close n :: tail)) from by
          show (XmlEvent.start n attrs ::
            (XmlForest.events cs ++ [XmlEvent.close n])) ++ tail = _
          rw [List.cons_append, List.append_assoc, List.singleton_append],
        scan_cons_ok qStep _ (XmlEvent.start n attrs) _ rfl,
        show qStep (⟨R, some k, c⟩ : QState) (XmlEvent.start n attrs) =
          qOpen ⟨R, some k, c⟩ n from rfl,
        qOpen_other _ n hn.1 hc,
        q_noRowC_forest cs hn.2 _ (XmlEvent.close n :: tail),
        scan_cons_ok qStep _ (XmlEvent.close n) tail rfl,
        qClose_other _ n hn.1 hc,
        show cOne (.elem n attrs cs) = if n = "c" then 1 else 0 from rfl,
        if_neg hc, Nat.add_zero]

theorem q_rowChildren (ts : XmlForest) (h : rowChildForest ts = true) :
    ∀ (R : List Nat) (k : Nat) (c : Bool), ∃ c', ∀ tail : List XmlEvent,
      scan qStep ⟨R, some k, c⟩ (ts.events ++ tail) =
        scan qStep ⟨R, some (k + cCount ts), c'⟩ tail := by
  cases ts with
  | nil =>
    intro R k c
    refine ⟨c, fun tail => ?_⟩
    rw [show XmlForest.events .nil ++ tail = tail from rfl,
      show cCount .nil = 0 from rfl, Nat.add_zero]
  | cons t ts =>
    intro R k c
    have hs : rowChild t = true ∧ rowChildForest ts = true := by
      simpa [rowChildForest] using h
    obtain ⟨c1, h1⟩ := q_rowChild t hs.1 R k c
    obtain ⟨c2, h2⟩ := q_rowChildren ts hs.2 R (k + cOne t) c1
    refine ⟨c2, fun tail => ?_⟩
    rw [show XmlForest.events (.cons t ts) ++ tail =
        t.events ++ (ts.events ++ tail) from by
        show (t.events ++ ts.events) ++ tail = _
        rw [List.append_assoc],
      h1 (ts.events ++ tail), h2 tail,
      show cCount (.cons t ts) = cOne t + cCount ts from rfl,
      Nat.add_assoc]

theorem qOpen_rs (q : QState) (n : String) : (qOpen q n).rs = q.rs := by
  unfold qOpen
  split_ifs <;> rfl

mutual
theorem q_wsTree (t : XmlTree) (h : wsTree t = true) :
    ∀ q : QState, ∃ r' c', ∀ tail : List XmlEvent,
      scan qStep q (t.events ++ tail) =
        scan qStep ⟨q.rs ++ rccTree t, r', c'⟩ tail := by
  cases t with
  | text s =>
    intro q
    refine ⟨q.cr, q.cc, fun tail => ?_⟩
    rw [show XmlTree.events (.text s) ++ tail = XmlEvent.text s :: tail from rfl,
      scan_cons_ok qStep q (XmlEvent.text s) tail rfl,
      show rccTree (.text s) = [] from rfl, List.append_nil]
    rfl
  | selfClosing n attrs =>
    intro q
    refine ⟨(qOpen q n).cr, (qOpen q n).cc, fun tail => ?_⟩
    rw [show XmlTree.events (.selfClosing n attrs) ++ tail =
        XmlEvent.empty n attrs :: tail from rfl,
      scan_cons_ok qStep q (XmlEvent.empty n attrs) tail rfl,
      show rccTree (.selfClosing n attrs) = [] from rfl, List.append_nil,
      show qStep q (XmlEvent.empty n attrs) = qOpen q n from rfl,
      show (⟨q.rs, (qOpen q n).cr, (qOpen q n).cc⟩ : QState) = qOpen q n from by
        rw [← qOpen_rs q n]]
  | elem n attrs cs =>
    intro q
    by_cases hrow : n = "row"
    · subst hrow
      have hcs : rowChildForest cs = true := by simpa [wsTree] using h
      obtain ⟨c1, h1⟩ := q_rowChildren cs hcs q.rs 0 q.cc
      refine ⟨none, c1, fun tail => ?_⟩
      rw [show XmlTree.events (.elem "row" attrs cs) ++ tail =
          XmlEvent.start "row" attrs ::
            (XmlForest.events cs ++ (XmlEvent.close "row" :: tail)) from by
          show (XmlEvent.start "row" attrs ::
            (XmlForest.events cs ++ [XmlEvent.close "row"])) ++ tail = _
          rw [List.cons_append, List.append_assoc, List.singleton_append],
        scan_cons_ok qStep q (XmlEvent.start "row" attrs) _ rfl,
        show qStep q (XmlEvent.start "row" attrs) =
          (⟨q.rs, some 0, q.cc⟩ : QState) from rfl,
        h1 (XmlEvent.close "row" :: tail),
        scan_cons_ok qStep _ (XmlEvent.close "row") tail rfl,
        show qStep (⟨q.rs, some (0 + cCount cs), c1⟩ : QState)
            (XmlEvent.close "row") =
          (⟨q.rs ++ [0 + cCount cs], none, c1⟩ : QState) from rfl,
        show rccTree (.elem "row" attrs cs) = [cCount cs] from rfl,
        Nat.zero_add]
    · by_cases hc : n = "c"
      · exfalso
        subst hc
        simp [wsTree] at h
      · have hcs : wsForest cs = true := by
          have key : wsTree (.elem n attrs cs) =
              (if n = "row" then rowChildForest cs
               else if n = "c" then false else wsForest cs) := rfl
          rw [key, if_neg hrow, if_neg hc] at h
          exact h
        obtain ⟨r1, c1, h1⟩ := q_wsForest cs hcs q
        refine ⟨r1, c1, fun tail => ?_⟩
        rw [show XmlTree.events (.elem n attrs cs) ++ tail =
            XmlEvent.start n attrs ::
              (XmlForest.events cs ++ (XmlEvent.close n :: tail)) from by
            show (XmlEvent.start n attrs ::
              (XmlForest.events cs ++ [XmlEvent.close n])) ++ tail = _
            rw [List.cons_append, List.append_assoc, List.singleton_append],
          scan_cons_ok qStep q (XmlEvent.start n attrs) _ rfl,
          show qStep q (XmlEvent.start n attrs) = qOpen q n from rfl,
          qOpen_other q n hrow hc,
          h1 (XmlEvent.close n :: tail),
          scan_cons_ok qStep _ (XmlEvent.close n) tail rfl,
          qClose_other _ n hrow hc,
          show rccTree (.elem n attrs cs) =
            (if n = "row" then [cCount cs] else rccForest cs) from rfl,
          if_neg hrow]

theorem q_wsForest (ts : XmlForest) (h : wsForest ts = true) :
    ∀ q : QState, ∃ r' c', ∀ tail : List XmlEvent,
      scan qStep q (ts.events ++ tail) =
        scan qStep ⟨q.rs ++ rccForest ts, r', c'⟩ tail := by
  cases ts with
  | nil =>
    intro q
    refine ⟨q.cr, q.cc, fun tail => ?_⟩
    rw [show XmlForest.events .nil ++ tail = tail from rfl,
      show rccForest .nil = [] from rfl, List.append_nil]
  | cons t ts =>
    intro q
    have hs : wsTree t = true ∧ wsForest ts = true := by
      simpa [wsForest] using h
    obtain ⟨r1, c1, h1⟩ := q_wsTree t hs.1 q
    obtain ⟨r2, c2, h2⟩ := q_wsForest ts hs.2 ⟨q.rs ++ rccTree t, r1, c1⟩
    refine ⟨r2, c2, fun tail => ?_⟩
    rw [show XmlForest.events (.cons t ts) ++ tail =
        t.events ++ (ts.events ++ tail) from by
        show (t.events ++ ts.events) ++ tail = _
        rw [List.append_assoc],
      h1 (ts.events ++ tail), h2 tail,
      show rccForest (.cons t ts) = rccTree t ++ rccForest ts from rfl,
      ← List.append_assoc]
end

/-- C1 counterexample: a self-closing row element counts as a row element
of the document but parse_worksheet produces no Row for it (the builder is
created but no End event ever pushes it); likewise a self-closing c child
contributes no cell although it is a c child of its row. -/
theorem C1_self_closing_counterexample :
    rowElemCountForest (.cons (.selfClosing "row" []) .nil) = 1 ∧
    (parse_worksheet_impl
        (XmlForest.events (.cons (.selfClosing "row" []) .nil))).rows.length = 0 ∧
    cChildCountAll (.cons (.selfClosing "c" []) .nil) = 1 ∧
    (parse_worksheet_impl
        (XmlForest.events
          (.cons (.elem "row" [] (.cons (.selfClosing "c" []) .nil)) .nil))).rows.map
      (fun r => r.cells.length) = [0] := by
  refine ⟨rfl, rfl, rfl, rfl⟩

/-- C1 amended: for every well-formed worksheet document (rows holding only
legal row children, c elements only inside rows), the Row records are in
bijection, in document order, with the row elements written with an open
and a matching close tag, and each Row's cell count equals the number of
its c children written with an open and a matching close tag; self-closing
row and c elements contribute no record. -/
theorem C1_row_and_cell_counts (ts : XmlForest) (h : wsForest ts = true) :
    (parse_worksheet_impl (XmlForest.events ts)).rows.map
        (fun r => r.cells.length) = rccForest ts ∧
    (parse_worksheet_impl (XmlForest.events ts)).rows.length =
      (rccForest ts).length := by
  have key : (parse_worksheet_impl (XmlForest.events ts)).rows.map
      (fun r => r.cells.length) = rccForest ts := by
    have h1 : (parse_worksheet_impl (XmlForest.events ts)).rows.map
        (fun r => r.cells.length) =
        (projQ (scan wsStep wsInit (trimEvents (XmlForest.events ts)))).rs := rfl
    rw [h1, projQ_scan, qscan_trim]
    obtain ⟨r', c', hf⟩ := q_wsForest ts h ⟨[], none, false⟩
    have h2 := hf []
    rw [List.append_nil] at h2
    show (scan qStep (⟨[], none, false⟩ : QState) (XmlForest.events ts)).rs = _
    rw [h2]
    show ([] : List Nat) ++ rccForest ts = rccForest ts
    rw [List.nil_append]
  exact ⟨key, by rw [← key, List.length_map]⟩

/-- Witness for the amended C1: a sheetData holding one open-and-closed row
with two open-and-closed c children followed by a self-closing row yields
exactly one Row with two cells. -/
theorem C1_row_and_cell_counts_witness :
    wsForest
        (.cons (.elem "sheetData" []
          (.cons (.elem "row" [("r", "1")]
            (.cons (.elem "c" [("r", "A1")] .nil)
              (.cons (.elem "c" [("r", "B1")] .nil) .nil)))
            (.cons (.selfClosing "row" [("r", "2")]) .nil))) .nil) = true ∧
    rccForest
        (.cons (.elem "sheetData" []
          (.cons (.elem "row" [("r", "1")]
            (.cons (.elem "c" [("r", "A1")] .nil)
              (.cons (.elem "c" [("r", "B1")] .nil) .nil)))
            (.cons (.selfClosing "row" [("r", "2")]) .nil))) .nil) = [2] ∧
    (parse_worksheet_impl
        (XmlForest.events
          (.cons (.elem "sheetData" []
            (.cons (.elem "row" [("r", "1")]
              (.cons (.elem "c" [("r", "A1")] .nil)
                (.cons (.elem "c" [("r", "B1")] .nil) .nil)))
              (.cons (.selfClosing "row" [("r", "2")]) .nil))) .nil))).rows.map
      (fun r => r.cells.length) =
      rccForest
        (.cons (.elem "sheetData" []
          (.cons (.elem "row" [("r", "1")]
            (.cons (.elem "c" [("r", "A1")] .nil)
              (.cons (.elem "c" [("r", "B1")] .nil) .nil)))
            (.cons (.selfClosing "row" [("r", "2")]) .nil))) .nil) :=
  ⟨by decide, by decide,
   (C1_row_and_cell_counts
     (.cons (.elem "sheetData" []
       (.cons (.elem "row" [("r", "1")]
         (.cons (.elem "c" [("r", "A1")] .nil)
           (.cons (.elem "c" [("r", "B1")] .nil) .nil)))
         (.cons (.selfClosing "row" [("r", "2")]) .nil))) .nil)
     (by decide)).1⟩
